import Mathlib

/-!
Verification of the rgb-ctrl real-time state engine (src/main.rs).

Shallow embedding conventions:
* `i32`/`u16`/`usize` quantities that stay far from overflow are modelled as
  `Int`/`Nat`; grid coordinates are `Int` as in the source (`i32`).
* `Instant` timestamps are modelled as `Nat` milliseconds; `t.elapsed()` at
  current time `now` is `now - t` (truncated subtraction matches the
  non-negativity of `Instant::elapsed`).
* `rand::rng().random_range(0..n)` is modelled with an injectable random
  stream `g : Nat → Nat` and a cursor `k`: the draw at cursor `k` yields
  `g k % n` and advances the cursor.  The rejection-sampling loop in
  `spawn_food` is given explicit fuel and returns `none` when the fuel runs
  out (the source loops forever in that case); every operation that can reach
  that loop therefore returns `Option`.
* `Ripple` stores `f32` fields in the source, but `age`/`max_age` only ever
  hold the integers 0,1,...,12 (age starts at 0.0 and moves in +1.0 steps,
  `max_age` is the constant 12.0), on which `f32` arithmetic is exact, so
  they are modelled as `Nat`.  The origin is written from integer grid
  coordinates and is modelled as `Int`.
-/

namespace RgbCtrl

/-- Rust `struct Point { x: i32, y: i32 }`. -/
structure Point where
  x : Int
  y : Int
deriving DecidableEq

/-- Rust `enum Mode { Ambient, Snake, GameOver }`. -/
inductive Mode where
  | Ambient
  | Snake
  | GameOver
deriving DecidableEq

/-- Rust `struct Ripple` (see the header note on the `f32` fields). -/
structure Ripple where
  x : Int
  y : Int
  age : Nat
  max_age : Nat
deriving DecidableEq

/-- Rust `struct AppState` (timestamps in milliseconds, see header note). -/
structure AppState where
  mode : Mode
  width : Int
  height : Int
  input_history : List Nat
  snake : List Point
  food : Point
  direction : Point
  snake_timer : Nat
  last_snake_update : Nat
  ripples : List Ripple
  time_tick : Nat
  game_over_timer : Option Nat
deriving DecidableEq

/-- Rust `AppState::new(w, h)`; `now` is the creation time (`Instant::now()`).
The `time_tick: f32` counter is modelled as the number of `+= 0.15`
increments, since no specified behaviour reads its value. -/
def AppState.new (w h : Int) (now : Nat) : AppState :=
  { mode := Mode.Ambient
    width := w
    height := h
    input_history := []
    snake := []
    food := ⟨0, 0⟩
    direction := ⟨1, 0⟩
    snake_timer := 150
    last_snake_update := now
    ripples := []
    time_tick := 0
    game_over_timer := none }

/-- Rust `fn key_to_grid(code: u16) -> (i32, i32)`, with the source's match arms in
order; the wildcard arm draws `random_range(0..22)` then `random_range(0..6)`
from the stream, returning the advanced cursor. -/
def key_to_grid (g : Nat → Nat) (k : Nat) (code : Nat) : (Int × Int) × Nat :=
  if code = 1 then ((0, 0), k)
  else if 59 ≤ code ∧ code ≤ 68 then (((code : Int) - 59 + 2, 0), k)
  else if code = 41 then ((0, 1), k)
  else if 2 ≤ code ∧ code ≤ 13 then (((code : Int) - 1, 1), k)
  else if code = 15 then ((0, 2), k)
  else if 16 ≤ code ∧ code ≤ 25 then (((code : Int) - 15, 2), k)
  else if code = 58 then ((0, 3), k)
  else if 30 ≤ code ∧ code ≤ 38 then (((code : Int) - 29, 3), k)
  else if code = 42 then ((0, 4), k)
  else if 44 ≤ code ∧ code ≤ 50 then (((code : Int) - 43, 4), k)
  else if code = 29 then ((0, 5), k)
  else if code = 103 then ((19, 4), k)
  else if code = 108 then ((19, 5), k)
  else if code = 105 then ((18, 5), k)
  else if code = 106 then ((20, 5), k)
  else if code = 57 then ((10, 5), k)
  else (((g k % 22 : Nat), (g (k + 1) % 6 : Nat)), k + 2)

/-- The fixed cheat sequence `[KEY_UP, KEY_DOWN, KEY_LEFT, KEY_RIGHT, KEY_UP,
KEY_DOWN]`. -/
def cheatSeq : List Nat := [103, 108, 105, 106, 103, 108]

/-- The history push at the top of `handle_input`: evict the oldest entry if
the window already holds 6 codes, then append the new code. -/
def pushHistory (h : List Nat) (code : Nat) : List Nat :=
  (if 6 ≤ h.length then h.tail else h) ++ [code]

/-- The `loop` inside `spawn_food`: draw `x ∈ [0,w)` and `y ∈ [0,h)`, retry
while the point lies on the snake.  Explicit fuel; `none` models the source
looping forever. -/
def spawn_food_loop (g : Nat → Nat) (body : List Point) (w h : Int) :
    Nat → Nat → Option (Point × Nat)
  | _, 0 => none
  | k, fuel + 1 =>
    let p : Point := ⟨(g k % w.toNat : Nat), (g (k + 1) % h.toNat : Nat)⟩
    if p ∈ body then spawn_food_loop g body w h (k + 2) fuel
    else some (p, k + 2)

/-- Rust `AppState::spawn_food`. -/
def AppState.spawn_food (g : Nat → Nat) (k fuel : Nat) (s : AppState) :
    Option (AppState × Nat) :=
  match spawn_food_loop g s.snake s.width s.height k fuel with
  | none => none
  | some (p, k') => some ({ s with food := p }, k')

/-- Rust `AppState::reset_snake`: 3-cell body, rightward direction, fresh food,
then `Snake` mode. -/
def AppState.reset_snake (g : Nat → Nat) (k fuel : Nat) (s : AppState) :
    Option (AppState × Nat) :=
  match AppState.spawn_food g k fuel
      { s with snake := [⟨5, 3⟩, ⟨4, 3⟩, ⟨3, 3⟩], direction := ⟨1, 0⟩ } with
  | none => none
  | some (s1, k') => some ({ s1 with mode := Mode.Snake }, k')

/-- Rust `AppState::handle_input`.  The `Snake` arm's guarded `match` producing
`new_dir` is flattened into the equivalent guard-ordered if-chain (a guarded
arm whose guard fails falls through to the wildcard `None`). -/
def AppState.handle_input (g : Nat → Nat) (k fuel : Nat) (code : Nat)
    (s : AppState) : Option (AppState × Nat) :=
  if pushHistory s.input_history code = cheatSeq then
    match AppState.reset_snake g k fuel
        { s with input_history := pushHistory s.input_history code } with
    | none => none
    | some (s1, k') => some ({ s1 with input_history := [] }, k')
  else
    match s.mode with
    | Mode.Ambient =>
        some ({ s with
                  input_history := pushHistory s.input_history code,
                  ripples := s.ripples ++
                    [⟨(key_to_grid g k code).1.1, (key_to_grid g k code).1.2, 0, 12⟩] },
              (key_to_grid g k code).2)
    | Mode.Snake =>
        if (code = 103 ∨ code = 17) ∧ s.direction.y ≠ 1 then
          some ({ s with input_history := pushHistory s.input_history code,
                         direction := ⟨0, -1⟩ }, k)
        else if (code = 108 ∨ code = 31) ∧ s.direction.y ≠ -1 then
          some ({ s with input_history := pushHistory s.input_history code,
                         direction := ⟨0, 1⟩ }, k)
        else if (code = 105 ∨ code = 30) ∧ s.direction.x ≠ 1 then
          some ({ s with input_history := pushHistory s.input_history code,
                         direction := ⟨-1, 0⟩ }, k)
        else if (code = 106 ∨ code = 32) ∧ s.direction.x ≠ -1 then
          some ({ s with input_history := pushHistory s.input_history code,
                         direction := ⟨1, 0⟩ }, k)
        else
          some ({ s with input_history := pushHistory s.input_history code }, k)
    | Mode.GameOver =>
        some ({ s with input_history := pushHistory s.input_history code }, k)

/-- Rust `AppState::step_snake`.  `none` on an empty body models the panicking
index `self.snake[0]`; `Vec::pop` removes the last element (`dropLast`). -/
def AppState.step_snake (g : Nat → Nat) (k fuel now : Nat) (s : AppState) :
    Option (AppState × Nat) :=
  match s.snake with
  | [] => none
  | head :: _ =>
    let new_head : Point := ⟨head.x + s.direction.x, head.y + s.direction.y⟩
    if new_head.x < 0 ∨ s.width ≤ new_head.x ∨ new_head.y < 0 ∨
        s.height ≤ new_head.y ∨ new_head ∈ s.snake then
      some ({ s with mode := Mode.GameOver, game_over_timer := some now }, k)
    else if new_head = s.food then
      match AppState.spawn_food g k fuel { s with snake := new_head :: s.snake } with
      | none => none
      | some (s2, k') =>
          some ({ s2 with snake_timer :=
                    if 50 < s2.snake_timer then s2.snake_timer - 2
                    else s2.snake_timer }, k')
    else
      some ({ s with snake := (new_head :: s.snake).dropLast }, k)

/-- Rust `AppState::update`, called once per tick at current time `now`. -/
def AppState.update (g : Nat → Nat) (k fuel now : Nat) (s : AppState) :
    Option (AppState × Nat) :=
  match s.mode with
  | Mode.Ambient =>
      some ({ s with
                time_tick := s.time_tick + 1,
                ripples := (s.ripples.map fun r => { r with age := r.age + 1 }).filter
                  fun r => decide (r.age < r.max_age) }, k)
  | Mode.Snake =>
      if s.snake_timer ≤ now - s.last_snake_update then
        match AppState.step_snake g k fuel now s with
        | none => none
        | some (s', k') => some ({ s' with last_snake_update := now }, k')
      else some (s, k)
  | Mode.GameOver =>
      match s.game_over_timer with
      | some t =>
          if 5000 ≤ now - t then
            some ({ s with mode := Mode.Ambient, game_over_timer := none }, k)
          else some (s, k)
      | none => some (s, k)

/-- Feeding a list of key codes as consecutive `handle_input` calls. -/
def handle_seq (g : Nat → Nat) (fuel : Nat) :
    List Nat → AppState → Nat → Option (AppState × Nat)
  | [], s, k => some (s, k)
  | c :: cs, s, k =>
    match AppState.handle_input g k fuel c s with
    | none => none
    | some (s', k') => handle_seq g fuel cs s' k'

/-- Membership of a point in the `[0,w) × [0,h)` grid. -/
def inBounds (w h : Int) (p : Point) : Prop :=
  0 ≤ p.x ∧ p.x < w ∧ 0 ≤ p.y ∧ p.y < h

instance (w h : Int) (p : Point) : Decidable (inBounds w h p) := by
  unfold inBounds
  infer_instance

/-- States reachable from the process-start state (`AppState::new(22, 6)`,
main passes `GRID_WIDTH`/`GRID_HEIGHT`) by any interleaving of key presses
and ticks, under any random stream, fuel, and clock readings. -/
inductive Reachable : AppState → Prop where
  | init (now : Nat) : Reachable (AppState.new 22 6 now)
  | input (s s' : AppState) (g : Nat → Nat) (k fuel code k' : Nat) :
      Reachable s → AppState.handle_input g k fuel code s = some (s', k') →
      Reachable s'
  | tick (s s' : AppState) (g : Nat → Nat) (k fuel now k' : Nat) :
      Reachable s → AppState.update g k fuel now s = some (s', k') →
      Reachable s'

/-- The inductive invariant carried through `Reachable`. -/
def GoodState (s : AppState) : Prop :=
  (50 ≤ s.snake_timer ∧ s.snake_timer ≤ 150 ∧ Even s.snake_timer) ∧
  (s.mode = Mode.Snake → 3 ≤ s.snake.length) ∧
  (∀ r ∈ s.ripples, r.age < r.max_age)

/-- The all-zero random stream, used for concrete runs. -/
def g0 : Nat → Nat := fun _ => 0

/-- An ambient state whose full 6-slot window already ends with the codes
`Up, Down, Left, Right` — the shape on which the cheat fires two presses
early. -/
def earlyTriggerState : AppState :=
  { AppState.new 22 6 0 with input_history := [1, 1, 103, 108, 105, 106] }

/-- The state produced by feeding the six cheat codes to a fresh
`AppState.new 22 6 0` under the all-zero stream. -/
def cheatRunEnd : AppState :=
  { mode := Mode.Snake
    width := 22
    height := 6
    input_history := []
    snake := [⟨5, 3⟩, ⟨4, 3⟩, ⟨3, 3⟩]
    food := ⟨0, 0⟩
    direction := ⟨1, 0⟩
    snake_timer := 150
    last_snake_update := 0
    ripples := [⟨19, 4, 0, 12⟩, ⟨19, 5, 0, 12⟩, ⟨18, 5, 0, 12⟩,
                ⟨20, 5, 0, 12⟩, ⟨19, 4, 0, 12⟩]
    time_tick := 0
    game_over_timer := none }

/-- A plain snake-mode state (the freshly reset game with food at (9,5)). -/
def snakeBase : AppState :=
  { mode := Mode.Snake
    width := 22
    height := 6
    input_history := []
    snake := [⟨5, 3⟩, ⟨4, 3⟩, ⟨3, 3⟩]
    food := ⟨9, 5⟩
    direction := ⟨1, 0⟩
    snake_timer := 150
    last_snake_update := 0
    ripples := []
    time_tick := 0
    game_over_timer := none }

/-- A snake-mode state whose head sits at the right edge, moving right. -/
def edgeSnakeState : AppState :=
  { snakeBase with snake := [⟨21, 3⟩, ⟨20, 3⟩, ⟨19, 3⟩] }

/-- A game-over state (entered at time 0). -/
def gameOverState : AppState :=
  { snakeBase with mode := Mode.GameOver, game_over_timer := some 0 }

/-- A snake-mode state about to complete the cheat window on the next
`Down` press, currently moving down. -/
def snakeCheatPending : AppState :=
  { snakeBase with input_history := [103, 108, 105, 106, 103],
                   direction := ⟨0, 1⟩ }

/-- An ambient state about to complete the cheat window on the next `Down`
press. -/
def ambientCheatPending : AppState :=
  { AppState.new 22 6 0 with input_history := [103, 108, 105, 106, 103] }

/-- Whatever `spawn_food_loop` returns is off the given body, and in bounds
when the grid dimensions are positive. -/
theorem spawn_food_loop_sound (g : Nat → Nat) (body : List Point) (w h : Int) :
    ∀ fuel k p k', spawn_food_loop g body w h k fuel = some (p, k') →
      p ∉ body ∧ (0 < w → 0 < h → inBounds w h p) := by
  intro fuel
  induction fuel with
  | zero => intro k p k' hp; simp [spawn_food_loop] at hp
  | succ n ih =>
    intro k p k' hp
    simp only [spawn_food_loop] at hp
    split_ifs at hp with hmem
    · exact ih (k + 2) p k' hp
    · rw [Option.some.injEq, Prod.mk.injEq] at hp
      obtain ⟨hp1, _⟩ := hp
      subst hp1
      refine ⟨hmem, fun hw hh => ?_⟩
      have hx : g k % w.toNat < w.toNat := Nat.mod_lt _ (by omega)
      have hy : g (k + 1) % h.toNat < h.toNat := Nat.mod_lt _ (by omega)
      unfold inBounds
      dsimp only
      refine ⟨Int.natCast_nonneg _, by omega, Int.natCast_nonneg _, by omega⟩

/-- A key press that does not complete the cheat window records the code in
the history and leaves every other field except `ripples`/`direction`
unchanged (those are governed by the mode dispatch). -/
theorem handle_input_noncheat (g : Nat → Nat) (k fuel code : Nat)
    (s s' : AppState) (k' : Nat)
    (hne : pushHistory s.input_history code ≠ cheatSeq)
    (h : AppState.handle_input g k fuel code s = some (s', k')) :
    s'.input_history = pushHistory s.input_history code ∧ s'.mode = s.mode ∧
    s'.snake = s.snake ∧ s'.snake_timer = s.snake_timer ∧
    s'.game_over_timer = s.game_over_timer ∧ s'.food = s.food ∧
    s'.last_snake_update = s.last_snake_update ∧ s'.time_tick = s.time_tick ∧
    s'.width = s.width ∧ s'.height = s.height ∧
    (s'.ripples = s.ripples ∨
      s'.ripples = s.ripples ++
        [⟨(key_to_grid g k code).1.1, (key_to_grid g k code).1.2, 0, 12⟩]) := by
  simp only [AppState.handle_input, if_neg hne] at h
  cases hmode : s.mode <;> rw [hmode] at h
  case Ambient =>
    rw [Option.some.injEq, Prod.mk.injEq] at h
    obtain ⟨h1, _⟩ := h
    subst h1
    simp [hmode]
  case Snake =>
    split_ifs at h <;>
    · rw [Option.some.injEq, Prod.mk.injEq] at h
      obtain ⟨h1, _⟩ := h
      subst h1
      simp [hmode]
  case GameOver =>
    rw [Option.some.injEq, Prod.mk.injEq] at h
    obtain ⟨h1, _⟩ := h
    subst h1
    simp [hmode]

/-- A key press that completes the cheat window unconditionally resets the
game: `Snake` mode, the initial 3-cell body, rightward direction, cleared
window, food off the body; the step timer and the ripples are untouched. -/
theorem handle_input_cheat (g : Nat → Nat) (k fuel code : Nat)
    (s s' : AppState) (k' : Nat)
    (heq : pushHistory s.input_history code = cheatSeq)
    (h : AppState.handle_input g k fuel code s = some (s', k')) :
    s'.mode = Mode.Snake ∧
    s'.snake = [⟨5, 3⟩, ⟨4, 3⟩, ⟨3, 3⟩] ∧
    s'.direction = ⟨1, 0⟩ ∧ s'.input_history = [] ∧
    s'.food ∉ s'.snake ∧
    s'.snake_timer = s.snake_timer ∧ s'.ripples = s.ripples ∧
    s'.width = s.width ∧ s'.height = s.height := by
  simp only [AppState.handle_input, if_pos heq, AppState.reset_snake,
    AppState.spawn_food] at h
  cases hsp : spawn_food_loop g ([⟨5, 3⟩, ⟨4, 3⟩, ⟨3, 3⟩] : List Point)
      s.width s.height k fuel <;> rw [hsp] at h
  case none => simp at h
  case some pk =>
    obtain ⟨p, k2⟩ := pk
    rw [Option.some.injEq, Prod.mk.injEq] at h
    obtain ⟨h1, _⟩ := h
    subst h1
    have hsound := spawn_food_loop_sound g
      ([⟨5, 3⟩, ⟨4, 3⟩, ⟨3, 3⟩] : List Point) s.width s.height fuel k p k2 hsp
    exact ⟨rfl, rfl, rfl, rfl, hsound.1, rfl, rfl, rfl, rfl⟩

/-- C5: for every key code — the static table entries as well as the random
fallback for codes outside the table — and for every random stream and
cursor, `key_to_grid` returns a point `(x, y)` with `0 ≤ x < 22` and
`0 ≤ y < 6`. -/
theorem key_to_grid_in_bounds (g : Nat → Nat) (k code : Nat) :
    0 ≤ (key_to_grid g k code).1.1 ∧ (key_to_grid g k code).1.1 < 22 ∧
    0 ≤ (key_to_grid g k code).1.2 ∧ (key_to_grid g k code).1.2 < 6 := by
  rcases hkg : key_to_grid g k code with ⟨⟨x, y⟩, k2⟩
  dsimp only
  rw [key_to_grid] at hkg
  by_cases h1 : code = 1
  · rw [if_pos h1] at hkg
    simp only [Prod.mk.injEq] at hkg
    omega
  rw [if_neg h1] at hkg
  by_cases h2 : 59 ≤ code ∧ code ≤ 68
  · rw [if_pos h2] at hkg
    simp only [Prod.mk.injEq] at hkg
    omega
  rw [if_neg h2] at hkg
  by_cases h3 : code = 41
  · rw [if_pos h3] at hkg
    simp only [Prod.mk.injEq] at hkg
    omega
  rw [if_neg h3] at hkg
  by_cases h4 : 2 ≤ code ∧ code ≤ 13
  · rw [if_pos h4] at hkg
    simp only [Prod.mk.injEq] at hkg
    omega
  rw [if_neg h4] at hkg
  by_cases h5 : code = 15
  · rw [if_pos h5] at hkg
    simp only [Prod.mk.injEq] at hkg
    omega
  rw [if_neg h5] at hkg
  by_cases h6 : 16 ≤ code ∧ code ≤ 25
  · rw [if_pos h6] at hkg
    simp only [Prod.mk.injEq] at hkg
    omega
  rw [if_neg h6] at hkg
  by_cases h7 : code = 58
  · rw [if_pos h7] at hkg
    simp only [Prod.mk.injEq] at hkg
    omega
  rw [if_neg h7] at hkg
  by_cases h8 : 30 ≤ code ∧ code ≤ 38
  · rw [if_pos h8] at hkg
    simp only [Prod.mk.injEq] at hkg
    omega
  rw [if_neg h8] at hkg
  by_cases h9 : code = 42
  · rw [if_pos h9] at hkg
    simp only [Prod.mk.injEq] at hkg
    omega
  rw [if_neg h9] at hkg
  by_cases h10 : 44 ≤ code ∧ code ≤ 50
  · rw [if_pos h10] at hkg
    simp only [Prod.mk.injEq] at hkg
    omega
  rw [if_neg h10] at hkg
  by_cases h11 : code = 29
  · rw [if_pos h11] at hkg
    simp only [Prod.mk.injEq] at hkg
    omega
  rw [if_neg h11] at hkg
  by_cases h12 : code = 103
  · rw [if_pos h12] at hkg
    simp only [Prod.mk.injEq] at hkg
    omega
  rw [if_neg h12] at hkg
  by_cases h13 : code = 108
  · rw [if_pos h13] at hkg
    simp only [Prod.mk.injEq] at hkg
    omega
  rw [if_neg h13] at hkg
  by_cases h14 : code = 105
  · rw [if_pos h14] at hkg
    simp only [Prod.mk.injEq] at hkg
    omega
  rw [if_neg h14] at hkg
  by_cases h15 : code = 106
  · rw [if_pos h15] at hkg
    simp only [Prod.mk.injEq] at hkg
    omega
  rw [if_neg h15] at hkg
  by_cases h16 : code = 57
  · rw [if_pos h16] at hkg
    simp only [Prod.mk.injEq] at hkg
    omega
  rw [if_neg h16] at hkg
  simp only [Prod.mk.injEq] at hkg
  omega

/-- Window contents along the six presses of the cheat sequence: starting
from any window of at most 6 codes whose last four entries are not
`Up, Down, Left, Right`, the cheat comparison fails at presses 1–5 and
succeeds exactly at press 6. -/
theorem cheat_window_run (H : List Nat) (hlen : H.length ≤ 6)
    (hsuf : ¬ ∃ t, H = t ++ [103, 108, 105, 106]) :
    pushHistory H 103 ≠ cheatSeq ∧
    pushHistory (pushHistory H 103) 108 ≠ cheatSeq ∧
    pushHistory (pushHistory (pushHistory H 103) 108) 105 ≠ cheatSeq ∧
    pushHistory (pushHistory (pushHistory (pushHistory H 103) 108) 105) 106 ≠
      cheatSeq ∧
    pushHistory (pushHistory (pushHistory (pushHistory (pushHistory H 103) 108)
      105) 106) 103 ≠ cheatSeq ∧
    pushHistory (pushHistory (pushHistory (pushHistory (pushHistory
      (pushHistory H 103) 108) 105) 106) 103) 108 = cheatSeq := by
  rcases H with _ | ⟨a, _ | ⟨b, _ | ⟨c, _ | ⟨d, _ | ⟨e, _ | ⟨f, _ | ⟨x, t⟩⟩⟩⟩⟩⟩⟩
  · simp [pushHistory, cheatSeq]
  · simp [pushHistory, cheatSeq]
  · simp [pushHistory, cheatSeq]
  · simp [pushHistory, cheatSeq]
  · simp [pushHistory, cheatSeq]
    rintro rfl rfl rfl rfl
    exact hsuf ⟨[], rfl⟩
  · simp [pushHistory, cheatSeq]
    rintro rfl rfl rfl rfl
    exact hsuf ⟨[a], rfl⟩
  · simp [pushHistory, cheatSeq]
    rintro rfl rfl rfl rfl
    exact hsuf ⟨[a, b], rfl⟩
  · simp at hlen

/-- C1 (amended): feeding the six key codes Up, Down, Left, Right, Up, Down
as consecutive `handle_input` calls, from any mode and any prior window of at
most 6 codes whose last four entries are not exactly Up, Down, Left, Right,
leaves the state (whenever the run returns, i.e. the food respawn found a
free cell) in Snake mode with body `[(5,3),(4,3),(3,3)]` head first,
direction `(1,0)`, and an empty input history window. -/
theorem cheat_sequence_enters_snake (g : Nat → Nat) (fuel : Nat)
    (s : AppState) (k : Nat)
    (hlen : s.input_history.length ≤ 6)
    (hsuf : ¬ ∃ t, s.input_history = t ++ [103, 108, 105, 106])
    (s' : AppState) (k' : Nat)
    (h : handle_seq g fuel cheatSeq s k = some (s', k')) :
    s'.mode = Mode.Snake ∧ s'.snake = [⟨5, 3⟩, ⟨4, 3⟩, ⟨3, 3⟩] ∧
    s'.direction = ⟨1, 0⟩ ∧ s'.input_history = [] := by
  obtain ⟨hw1, hw2, hw3, hw4, hw5, hw6⟩ := cheat_window_run s.input_history hlen hsuf
  rw [show cheatSeq = ([103, 108, 105, 106, 103, 108] : List Nat) from rfl] at h
  rw [handle_seq] at h
  cases h1 : AppState.handle_input g k fuel 103 s with
  | none => rw [h1] at h; exact Option.noConfusion h
  | some p1 =>
  obtain ⟨s1, k1⟩ := p1
  simp only [h1] at h
  obtain ⟨hh1, -, -, -, -, -, -, -, -, -, -⟩ :=
    handle_input_noncheat g k fuel 103 s s1 k1 hw1 h1
  rw [handle_seq] at h
  cases h2 : AppState.handle_input g k1 fuel 108 s1 with
  | none => rw [h2] at h; exact Option.noConfusion h
  | some p2 =>
  obtain ⟨s2, k2⟩ := p2
  simp only [h2] at h
  obtain ⟨hh2, -, -, -, -, -, -, -, -, -, -⟩ :=
    handle_input_noncheat g k1 fuel 108 s1 s2 k2 (by rw [hh1]; exact hw2) h2
  rw [hh1] at hh2
  rw [handle_seq] at h
  cases h3 : AppState.handle_input g k2 fuel 105 s2 with
  | none => rw [h3] at h; exact Option.noConfusion h
  | some p3 =>
  obtain ⟨s3, k3⟩ := p3
  simp only [h3] at h
  obtain ⟨hh3, -, -, -, -, -, -, -, -, -, -⟩ :=
    handle_input_noncheat g k2 fuel 105 s2 s3 k3 (by rw [hh2]; exact hw3) h3
  rw [hh2] at hh3
  rw [handle_seq] at h
  cases h4 : AppState.handle_input g k3 fuel 106 s3 with
  | none => rw [h4] at h; exact Option.noConfusion h
  | some p4 =>
  obtain ⟨s4, k4⟩ := p4
  simp only [h4] at h
  obtain ⟨hh4, -, -, -, -, -, -, -, -, -, -⟩ :=
    handle_input_noncheat g k3 fuel 106 s3 s4 k4 (by rw [hh3]; exact hw4) h4
  rw [hh3] at hh4
  rw [handle_seq] at h
  cases h5 : AppState.handle_input g k4 fuel 103 s4 with
  | none => rw [h5] at h; exact Option.noConfusion h
  | some p5 =>
  obtain ⟨s5, k5⟩ := p5
  simp only [h5] at h
  obtain ⟨hh5, -, -, -, -, -, -, -, -, -, -⟩ :=
    handle_input_noncheat g k4 fuel 103 s4 s5 k5 (by rw [hh4]; exact hw5) h5
  rw [hh4] at hh5
  rw [handle_seq] at h
  cases h6 : AppState.handle_input g k5 fuel 108 s5 with
  | none => rw [h6] at h; exact Option.noConfusion h
  | some p6 =>
  obtain ⟨s6, k6⟩ := p6
  simp only [h6] at h
  rw [handle_seq, Option.some.injEq, Prod.mk.injEq] at h
  obtain ⟨h61, -⟩ := h
  subst h61
  obtain ⟨c1, c2, c3, c4, -, -, -, -, -⟩ :=
    handle_input_cheat g k5 fuel 108 s5 s6 k6 (by rw [hh5]; exact hw6) h6
  exact ⟨c1, c2, c3, c4⟩

/-- C1 counterexample: with a full window already ending in Up, Down, Left,
Right, the cheat fires two presses early, and the remaining four presses are
interpreted in Snake mode, so the run ends with direction `(0,-1)` and a
4-code window — not direction `(1,0)` and an empty window as the claim
states for arbitrary prior window contents. -/
theorem cheat_sequence_any_history_fails :
    ((handle_seq g0 1 cheatSeq earlyTriggerState 0).map
        fun p => (p.1.direction, p.1.input_history)) =
      some (⟨0, -1⟩, [105, 106, 103, 108]) ∧
    some ((⟨0, -1⟩ : Point), ([105, 106, 103, 108] : List Nat)) ≠
      some ((⟨1, 0⟩ : Point), ([] : List Nat)) := by
  constructor
  · decide
  · decide

/-- Witness for C1: the amended theorem applied to the fresh initial state. -/
theorem cheat_sequence_enters_snake_witness :
    cheatRunEnd.mode = Mode.Snake ∧
    cheatRunEnd.snake = [⟨5, 3⟩, ⟨4, 3⟩, ⟨3, 3⟩] ∧
    cheatRunEnd.direction = ⟨1, 0⟩ ∧ cheatRunEnd.input_history = [] :=
  cheat_sequence_enters_snake g0 1 (AppState.new 22 6 0) 0 (by decide)
    (by rintro ⟨t, ht⟩; simp [AppState.new] at ht) cheatRunEnd 2 (by decide)

/-- C2: in Snake mode with body `hd :: tl`, if `newHead = head + direction`
lies outside `[0,width) × [0,height)` or equals a cell of the current body,
one snake step only sets the mode to GameOver and records the entry
timestamp `now`; the body, food, direction and step interval (indeed every
other field) are left exactly as they were — the step aborts atomically. -/
theorem snake_step_collision_aborts (g : Nat → Nat) (k fuel now : Nat)
    (s : AppState) (hd : Point) (tl : List Point) (nh : Point)
    (hm : s.mode = Mode.Snake) (hs : s.snake = hd :: tl)
    (hnh : nh = ⟨hd.x + s.direction.x, hd.y + s.direction.y⟩)
    (hc : ¬ inBounds s.width s.height nh ∨ nh ∈ s.snake) :
    AppState.step_snake g k fuel now s =
      some ({ s with mode := Mode.GameOver, game_over_timer := some now }, k) := by
  have hcond : nh.x < 0 ∨ s.width ≤ nh.x ∨ nh.y < 0 ∨ s.height ≤ nh.y ∨
      nh ∈ hd :: tl := by
    rcases hc with hout | hmem
    · unfold inBounds at hout
      have : nh.x < 0 ∨ s.width ≤ nh.x ∨ nh.y < 0 ∨ s.height ≤ nh.y := by omega
      tauto
    · rw [hs] at hmem
      tauto
  subst hnh
  simp only [AppState.step_snake, hs]
  rw [if_pos hcond]

/-- Witness for C2: a head at the right edge moving right. -/
theorem snake_step_collision_aborts_witness :
    AppState.step_snake g0 0 1 7 edgeSnakeState =
      some ({ edgeSnakeState with
                mode := Mode.GameOver
                game_over_timer := some 7 }, 0) :=
  snake_step_collision_aborts g0 0 1 7 edgeSnakeState ⟨21, 3⟩
    [⟨20, 3⟩, ⟨19, 3⟩] ⟨22, 3⟩ rfl rfl (by decide) (Or.inl (by decide))

/-- C3: in Snake mode, when `newHead = head + direction` is in bounds and not
on the body, a step prepends `newHead`; if it is not the food, the tail cell
is removed and the length is unchanged; if it is the food, the body grows by
exactly one and whenever the respawn loop returns, the new food is off the
new body and in bounds; and when some free in-bounds cell exists, a random
stream exists under which the step (and hence the respawn) succeeds. -/
theorem snake_step_free_cell (g : Nat → Nat) (k fuel now : Nat)
    (s : AppState) (hd : Point) (tl : List Point) (nh : Point)
    (hm : s.mode = Mode.Snake) (hs : s.snake = hd :: tl)
    (hnh : nh = ⟨hd.x + s.direction.x, hd.y + s.direction.y⟩)
    (hb : inBounds s.width s.height nh) (hnm : nh ∉ s.snake) :
    (nh ≠ s.food →
      AppState.step_snake g k fuel now s =
        some ({ s with snake := (nh :: s.snake).dropLast }, k) ∧
      ((nh :: s.snake).dropLast).length = s.snake.length) ∧
    (nh = s.food → ∀ s' k', AppState.step_snake g k fuel now s = some (s', k') →
      s'.snake = nh :: s.snake ∧ s'.snake.length = s.snake.length + 1 ∧
      s'.food ∉ s'.snake ∧ inBounds s.width s.height s'.food) ∧
    (nh = s.food → ∀ p : Point, inBounds s.width s.height p → p ∉ nh :: s.snake →
      ∃ g2 s' k2, AppState.step_snake g2 k 1 now s = some (s', k2)) := by
  subst hnh
  rw [hs] at hnm
  unfold inBounds at hb
  have hncond : ¬((⟨hd.x + s.direction.x, hd.y + s.direction.y⟩ : Point).x < 0 ∨
      s.width ≤ (⟨hd.x + s.direction.x, hd.y + s.direction.y⟩ : Point).x ∨
      (⟨hd.x + s.direction.x, hd.y + s.direction.y⟩ : Point).y < 0 ∨
      s.height ≤ (⟨hd.x + s.direction.x, hd.y + s.direction.y⟩ : Point).y ∨
      (⟨hd.x + s.direction.x, hd.y + s.direction.y⟩ : Point) ∈ hd :: tl) := by
    dsimp only at hb ⊢
    push_neg
    exact ⟨by omega, by omega, by omega, by omega, hnm⟩
  refine ⟨fun hne => ?_, fun heq s' k' hstep => ?_, fun heq p hpb hpnm => ?_⟩
  · constructor
    · simp only [AppState.step_snake, hs]
      rw [if_neg hncond, if_neg hne]
    · rw [hs]
      simp
  · simp only [AppState.step_snake, hs] at hstep
    rw [if_neg hncond, if_pos heq] at hstep
    simp only [AppState.spawn_food] at hstep
    cases hsp : spawn_food_loop g
        ((⟨hd.x + s.direction.x, hd.y + s.direction.y⟩ : Point) :: hd :: tl)
        s.width s.height k fuel with
    | none => rw [hsp] at hstep; exact Option.noConfusion hstep
    | some qk =>
      obtain ⟨q, k2⟩ := qk
      rw [hsp] at hstep
      rw [Option.some.injEq, Prod.mk.injEq] at hstep
      obtain ⟨hst, -⟩ := hstep
      subst hst
      have hsound := spawn_food_loop_sound g _ s.width s.height fuel k q k2 hsp
      refine ⟨by rw [hs], by rw [hs]; simp, hsound.1, ?_⟩
      exact hsound.2 (by omega) (by omega)
  · refine ⟨fun i => if i = k then p.x.toNat else p.y.toNat,
      { s with snake := (⟨hd.x + s.direction.x, hd.y + s.direction.y⟩ : Point) :: s.snake,
               food := p,
               snake_timer := if 50 < s.snake_timer then s.snake_timer - 2
                              else s.snake_timer }, k + 2, ?_⟩
    simp only [AppState.step_snake, hs]
    rw [if_neg hncond, if_pos heq]
    simp only [AppState.spawn_food, spawn_food_loop]
    unfold inBounds at hpb
    have hgx : (if k = k then p.x.toNat else p.y.toNat) = p.x.toNat := if_pos rfl
    have hgy : (if k + 1 = k then p.x.toNat else p.y.toNat) = p.y.toNat :=
      if_neg (by omega)
    simp only [ite_true]
    rw [hgy]
    have hx : p.x.toNat % s.width.toNat = p.x.toNat := Nat.mod_eq_of_lt (by omega)
    have hy : p.y.toNat % s.height.toNat = p.y.toNat := Nat.mod_eq_of_lt (by omega)
    rw [hx, hy]
    have hq : (⟨(p.x.toNat : Int), (p.y.toNat : Int)⟩ : Point) = p := by
      obtain ⟨px, py⟩ := p
      dsimp only at hpb ⊢
      rw [Point.mk.injEq]
      constructor <;> omega
    rw [hq]
    rw [hs] at hpnm
    rw [if_neg hpnm]
/-- Witness for C3: an ordinary (non-food) move of the reset snake. -/
theorem snake_step_free_cell_witness :
    AppState.step_snake g0 0 1 7 snakeBase =
      some ({ snakeBase with
              snake := ((⟨6, 3⟩ : Point) :: snakeBase.snake).dropLast }, 0) ∧
    (((⟨6, 3⟩ : Point) :: snakeBase.snake).dropLast).length =
      snakeBase.snake.length :=
  (snake_step_free_cell g0 0 1 7 snakeBase ⟨5, 3⟩ [⟨4, 3⟩, ⟨3, 3⟩] ⟨6, 3⟩
    rfl rfl (by decide) (by decide) (by decide)).1 (by decide)

/-- C4 (amended): in Snake mode, for a press that does not complete the
cheat window and with the direction one of the four unit vectors, a
directional key (Up/W, Down/S, Left/A, Right/D) sets the direction to the
corresponding unit vector except that a key whose vector is the 180-degree
reversal of the current direction leaves it unchanged (perpendicular and
same-direction keys are accepted), and every non-directional key leaves the
direction unchanged.  In particular with direction `(1,0)`, Left keeps
`(1,0)`. -/
theorem snake_direction_keys (g : Nat → Nat) (k fuel code : Nat) (s : AppState)
    (hm : s.mode = Mode.Snake)
    (hne : pushHistory s.input_history code ≠ cheatSeq)
    (hdir : s.direction = ⟨1, 0⟩ ∨ s.direction = ⟨-1, 0⟩ ∨
            s.direction = ⟨0, 1⟩ ∨ s.direction = ⟨0, -1⟩) :
    ∀ s' k', AppState.handle_input g k fuel code s = some (s', k') →
      ((code = 103 ∨ code = 17) →
        s'.direction = if s.direction = ⟨0, 1⟩ then s.direction else ⟨0, -1⟩) ∧
      ((code = 108 ∨ code = 31) →
        s'.direction = if s.direction = ⟨0, -1⟩ then s.direction else ⟨0, 1⟩) ∧
      ((code = 105 ∨ code = 30) →
        s'.direction = if s.direction = ⟨1, 0⟩ then s.direction else ⟨-1, 0⟩) ∧
      ((code = 106 ∨ code = 32) →
        s'.direction = if s.direction = ⟨-1, 0⟩ then s.direction else ⟨1, 0⟩) ∧
      (code ∉ ([103, 17, 108, 31, 105, 30, 106, 32] : List Nat) →
        s'.direction = s.direction) := by
  intro s' k' h
  simp only [AppState.handle_input, if_neg hne, hm] at h
  rcases hdir with hd | hd | hd | hd <;>
    rw [hd] at h <;>
    simp only [Point.mk.injEq] at h <;>
    norm_num at h <;>
    split_ifs at h <;>
    (rw [Option.some.injEq, Prod.mk.injEq] at h
     obtain ⟨h1, -⟩ := h
     subst h1) <;>
    refine ⟨fun hc => ?_, fun hc => ?_, fun hc => ?_, fun hc => ?_, fun hc => ?_⟩ <;>
    simp_all <;>
    omega
/-- C4 counterexample: moving down (direction `(0,1)`) and pressing Down —
a same-direction key the claim says is accepted and leaves the direction
`(0,1)` — while the window completes the cheat sequence resets the direction
to `(1,0)` instead. -/
theorem snake_direction_cheat_press_fails :
    ((AppState.handle_input g0 0 1 108 snakeCheatPending).map
        fun p => p.1.direction) = some ⟨1, 0⟩ ∧
    snakeCheatPending.direction = ⟨0, 1⟩ ∧
    some ((⟨1, 0⟩ : Point)) ≠ some ((⟨0, 1⟩ : Point)) := by
  refine ⟨by decide, by decide, by decide⟩

/-- Witness for C4: pressing Left while moving right (a 180-degree reversal)
leaves the direction `(1,0)`. -/
theorem snake_direction_keys_witness :
    ({ snakeBase with input_history := [105] } : AppState).direction =
      (if snakeBase.direction = ⟨1, 0⟩ then snakeBase.direction else ⟨-1, 0⟩) :=
  (snake_direction_keys g0 0 1 105 snakeBase rfl (by decide) (Or.inl rfl)
    { snakeBase with input_history := [105] } 0 (by decide)).2.2.1 (Or.inl rfl)

/-- C7 (amended): in GameOver mode a key press that does not complete the
cheat window only records the code in the input-history window; every other
field of the shared state is unchanged. -/
theorem game_over_input_only_history (g : Nat → Nat) (k fuel code : Nat)
    (s : AppState) (hm : s.mode = Mode.GameOver)
    (hne : pushHistory s.input_history code ≠ cheatSeq) :
    AppState.handle_input g k fuel code s =
      some ({ s with input_history := pushHistory s.input_history code }, k) := by
  simp only [AppState.handle_input, if_neg hne, hm]

/-- C7 counterexample: in GameOver mode a key press is not ignored — it
still mutates the shared state, namely the input-history window. -/
theorem game_over_input_changes_state :
    AppState.handle_input g0 0 1 1 gameOverState =
      some ({ gameOverState with input_history := [1] }, 0) ∧
    ({ gameOverState with input_history := [1] } : AppState) ≠ gameOverState := by
  exact ⟨by decide, by decide⟩

/-- Witness for C7: a concrete GameOver press. -/
theorem game_over_input_only_history_witness :
    AppState.handle_input g0 0 1 1 gameOverState =
      some ({ gameOverState with
                input_history := pushHistory gameOverState.input_history 1 }, 0) :=
  game_over_input_only_history g0 0 1 1 gameOverState rfl (by decide)

/-- C8: in GameOver mode with entry timestamp `t`, a tick at time `now`
returns to Ambient and clears the timestamp exactly when at least 5 seconds
have elapsed (`5000 ≤ now - t`); otherwise the state is unchanged. -/
theorem game_over_timeout (g : Nat → Nat) (k fuel now t : Nat) (s : AppState)
    (hm : s.mode = Mode.GameOver) (ht : s.game_over_timer = some t) :
    AppState.update g k fuel now s =
      some ((if 5000 ≤ now - t then
               { s with mode := Mode.Ambient, game_over_timer := none }
             else s), k) := by
  simp only [AppState.update, hm, ht]
  split_ifs <;> rfl

/-- Witness for C8: the 5-second boundary tick. -/
theorem game_over_timeout_witness :
    AppState.update g0 0 1 5000 gameOverState =
      some ((if 5000 ≤ 5000 - 0 then
               { gameOverState with mode := Mode.Ambient,
                                    game_over_timer := none }
             else gameOverState), 0) :=
  game_over_timeout g0 0 1 5000 0 gameOverState rfl rfl

/-- An ambient-mode press that does not complete the cheat window: the exact
resulting state (ripple appended at the mapped coordinate, age 0, max 12). -/
theorem handle_input_ambient (g : Nat → Nat) (k fuel code : Nat) (s : AppState)
    (hm : s.mode = Mode.Ambient)
    (hne : pushHistory s.input_history code ≠ cheatSeq) :
    AppState.handle_input g k fuel code s =
      some ({ s with input_history := pushHistory s.input_history code,
                     ripples := s.ripples ++
                       [⟨(key_to_grid g k code).1.1, (key_to_grid g k code).1.2,
                         0, 12⟩] }, (key_to_grid g k code).2) := by
  simp only [AppState.handle_input, if_neg hne, hm]

/-- Decomposition of a successful `step_snake`: ripples untouched; the step
timer either stays or (above the floor) drops by 2; and either the step
aborted to GameOver with the body untouched, or the mode is unchanged and the
body length stays or grows by one. -/
theorem step_snake_cases (g : Nat → Nat) (k fuel now : Nat) (s s' : AppState)
    (k' : Nat) (h : AppState.step_snake g k fuel now s = some (s', k')) :
    s'.ripples = s.ripples ∧
    (s'.snake_timer = s.snake_timer ∨
      (50 < s.snake_timer ∧ s'.snake_timer = s.snake_timer - 2)) ∧
    ((s'.mode = Mode.GameOver ∧ s'.snake = s.snake) ∨
      (s'.mode = s.mode ∧ s.snake.length ≤ s'.snake.length ∧
        s'.snake.length ≤ s.snake.length + 1)) := by
  cases hsn : s.snake with
  | nil => rw [AppState.step_snake, hsn] at h; exact Option.noConfusion h
  | cons hd tl =>
    simp only [AppState.step_snake, hsn] at h
    split_ifs at h with hcol hfood
    · rw [Option.some.injEq, Prod.mk.injEq] at h
      obtain ⟨h1, -⟩ := h
      subst h1
      exact ⟨rfl, Or.inl rfl, Or.inl ⟨rfl, rfl⟩⟩
    · simp only [AppState.spawn_food] at h
      cases hsp : spawn_food_loop g
          ((⟨hd.x + s.direction.x, hd.y + s.direction.y⟩ : Point) :: hd :: tl)
          s.width s.height k fuel with
      | none => rw [hsp] at h; exact Option.noConfusion h
      | some qk =>
        obtain ⟨q, k2⟩ := qk
        rw [hsp] at h
        rw [Option.some.injEq, Prod.mk.injEq] at h
        obtain ⟨h1, -⟩ := h
        subst h1
        refine ⟨rfl, ?_, Or.inr ⟨rfl, ?_, ?_⟩⟩
        · dsimp only
          split_ifs with h50
          · exact Or.inr ⟨h50, rfl⟩
          · exact Or.inl rfl
        · simp
        · simp
    · rw [Option.some.injEq, Prod.mk.injEq] at h
      obtain ⟨h1, -⟩ := h
      subst h1
      refine ⟨rfl, Or.inl rfl, Or.inr ⟨rfl, ?_, ?_⟩⟩
      · simp
      · simp

/-- Pressing a key preserves the inductive invariant. -/
theorem good_handle_input (g : Nat → Nat) (k fuel code : Nat)
    (s s' : AppState) (k' : Nat) (hg : GoodState s)
    (h : AppState.handle_input g k fuel code s = some (s', k')) :
    GoodState s' := by
  obtain ⟨htimer, hsnake, hripples⟩ := hg
  by_cases hch : pushHistory s.input_history code = cheatSeq
  · obtain ⟨c1, c2, -, -, -, c6, c7, -, -⟩ :=
      handle_input_cheat g k fuel code s s' k' hch h
    refine ⟨c6 ▸ htimer, fun _ => ?_, ?_⟩
    · rw [c2]; simp
    · rw [c7]; exact hripples
  · obtain ⟨-, m2, m3, m4, -, -, -, -, -, -, mr⟩ :=
      handle_input_noncheat g k fuel code s s' k' hch h
    refine ⟨m4 ▸ htimer, fun hmode => ?_, ?_⟩
    · rw [m3]; exact hsnake (by rw [← m2]; exact hmode)
    · rcases mr with hr | hr
      · rw [hr]; exact hripples
      · rw [hr]
        intro r hrm
        rcases List.mem_append.mp hrm with hin | hin
        · exact hripples r hin
        · simp only [List.mem_singleton] at hin
          rw [hin]
          norm_num

/-- Ticking preserves the inductive invariant. -/
theorem good_update (g : Nat → Nat) (k fuel now : Nat)
    (s s' : AppState) (k' : Nat) (hg : GoodState s)
    (h : AppState.update g k fuel now s = some (s', k')) :
    GoodState s' := by
  obtain ⟨htimer, hsnake, hripples⟩ := hg
  simp only [AppState.update] at h
  cases hm : s.mode <;> simp only [hm] at h
  case Ambient =>
    rw [Option.some.injEq, Prod.mk.injEq] at h
    obtain ⟨h1, -⟩ := h
    subst h1
    refine ⟨htimer, fun hmode => ?_, fun r hr => ?_⟩
    · dsimp only at hmode
      exact Mode.noConfusion hmode
    · dsimp only at hr
      have := List.mem_filter.mp hr
      exact of_decide_eq_true this.2
  case Snake =>
    split_ifs at h with helapsed
    · cases hstep : AppState.step_snake g k fuel now s with
      | none => rw [hstep] at h; exact Option.noConfusion h
      | some sk =>
        obtain ⟨s1, k1⟩ := sk
        rw [hstep] at h
        rw [Option.some.injEq, Prod.mk.injEq] at h
        obtain ⟨h1, -⟩ := h
        subst h1
        obtain ⟨cr, ct, cm⟩ := step_snake_cases g k fuel now s s1 k1 hstep
        obtain ⟨m, hm2⟩ := htimer.2.2
        refine ⟨?_, fun hmode => ?_, ?_⟩
        · dsimp only
          rcases ct with ht | ⟨h50, ht⟩
          · rw [ht]; exact htimer
          · rw [ht]
            exact ⟨by omega, by omega, ⟨m - 1, by omega⟩⟩
        · dsimp only at hmode ⊢
          rcases cm with ⟨hmo, -⟩ | ⟨hmo, hlen1, hlen2⟩
          · rw [hmo] at hmode; exact Mode.noConfusion hmode
          · have h3 := hsnake hm
            omega
        · dsimp only
          rw [cr]; exact hripples
    · rw [Option.some.injEq, Prod.mk.injEq] at h
      obtain ⟨h1, -⟩ := h
      subst h1
      exact ⟨htimer, hsnake, hripples⟩
  case GameOver =>
    cases hgo : s.game_over_timer with
    | none =>
      simp only [hgo] at h
      rw [Option.some.injEq, Prod.mk.injEq] at h
      obtain ⟨h1, -⟩ := h
      subst h1
      exact ⟨htimer, hsnake, hripples⟩
    | some t =>
      simp only [hgo] at h
      split_ifs at h with h5
      · rw [Option.some.injEq, Prod.mk.injEq] at h
        obtain ⟨h1, -⟩ := h
        subst h1
        refine ⟨htimer, fun hmode => ?_, hripples⟩
        dsimp only at hmode
        exact Mode.noConfusion hmode
      · rw [Option.some.injEq, Prod.mk.injEq] at h
        obtain ⟨h1, -⟩ := h
        subst h1
        exact ⟨htimer, hsnake, hripples⟩

/-- Every reachable state satisfies the inductive invariant. -/
theorem reachable_good : ∀ s, Reachable s → GoodState s := by
  intro s h
  induction h with
  | init now =>
    refine ⟨⟨?_, ?_, ?_⟩, fun hmode => ?_, fun r hr => ?_⟩
    · simp [AppState.new]
    · simp [AppState.new]
    · simp [AppState.new, Nat.even_iff]
    · simp [AppState.new] at hmode
    · simp [AppState.new] at hr
  | input s s1 g k fuel code k1 hr he ih =>
    exact good_handle_input g k fuel code s s1 k1 ih he
  | tick s s1 g k fuel now k1 hr he ih =>
    exact good_update g k fuel now s s1 k1 ih he

/-- A successful run of consecutive presses stays within `Reachable`. -/
theorem handle_seq_reachable (g : Nat → Nat) (fuel : Nat) :
    ∀ codes (s : AppState) k s' k', Reachable s →
      handle_seq g fuel codes s k = some (s', k') → Reachable s' := by
  intro codes
  induction codes with
  | nil =>
    intro s k s' k' hr h
    rw [handle_seq, Option.some.injEq, Prod.mk.injEq] at h
    obtain ⟨h1, -⟩ := h
    exact h1 ▸ hr
  | cons c cs ih =>
    intro s k s' k' hr h
    rw [handle_seq] at h
    cases h1 : AppState.handle_input g k fuel c s with
    | none => rw [h1] at h; exact Option.noConfusion h
    | some p =>
      obtain ⟨s1, k1⟩ := p
      simp only [h1] at h
      exact ih s1 k1 s' k' (Reachable.input s s1 g k fuel c k1 hr h1) h

/-- C6 (amended): every ripple in the live set of any reachable state
satisfies `age < max_age`; an ambient key press that does not complete the
cheat window inserts exactly one ripple with age 0 and max_age 12; and an
ambient tick increases every ripple's age by exactly one and purges, in that
same tick, every ripple whose new age has reached its max_age. -/
theorem ripple_age_invariant :
    (∀ s, Reachable s → ∀ r ∈ s.ripples, r.age < r.max_age) ∧
    (∀ g k fuel code (s s' : AppState) k', s.mode = Mode.Ambient →
      pushHistory s.input_history code ≠ cheatSeq →
      AppState.handle_input g k fuel code s = some (s', k') →
      s'.ripples = s.ripples ++
        [⟨(key_to_grid g k code).1.1, (key_to_grid g k code).1.2, 0, 12⟩]) ∧
    (∀ g k fuel now (s s' : AppState) k', s.mode = Mode.Ambient →
      AppState.update g k fuel now s = some (s', k') →
      s'.ripples = (s.ripples.map fun r => { r with age := r.age + 1 }).filter
        fun r => decide (r.age < r.max_age)) := by
  refine ⟨fun s hr => (reachable_good s hr).2.2, ?_, ?_⟩
  · intro g k fuel code s s' k' hm hne h
    rw [handle_input_ambient g k fuel code s hm hne, Option.some.injEq,
      Prod.mk.injEq] at h
    obtain ⟨h1, -⟩ := h
    subst h1
    rfl
  · intro g k fuel now s s' k' hm h
    simp only [AppState.update, hm] at h
    rw [Option.some.injEq, Prod.mk.injEq] at h
    obtain ⟨h1, -⟩ := h
    subst h1
    rfl

/-- C6 counterexample: an ambient key press that completes the cheat window
inserts no ripple — the live set stays empty rather than gaining the
age-0/max-12 ripple the claim promises for every ambient press. -/
theorem ripple_insertion_cheat_press_fails :
    ambientCheatPending.mode = Mode.Ambient ∧
    ((AppState.handle_input g0 0 1 108 ambientCheatPending).map
        fun p => p.1.ripples.length) = some 0 ∧
    (0 : Nat) ≠ ambientCheatPending.ripples.length + 1 := by
  refine ⟨rfl, by decide, by decide⟩

/-- Witness for C6: a concrete ambient press inserting one ripple. -/
theorem ripple_age_invariant_witness :
    ({ AppState.new 22 6 0 with
         input_history := [1]
         ripples := [⟨0, 0, 0, 12⟩] } : AppState).ripples =
      (AppState.new 22 6 0).ripples ++
        [⟨(key_to_grid g0 0 1).1.1, (key_to_grid g0 0 1).1.2, 0, 12⟩] :=
  ripple_age_invariant.2.1 g0 0 1 1 (AppState.new 22 6 0)
    { AppState.new 22 6 0 with input_history := [1], ripples := [⟨0, 0, 0, 12⟩] }
    0 rfl (by decide) (by decide)

/-- C9: the step interval starts at 150 ms; in every reachable state it
lies in `[50, 150]`; no key press changes it; no tick increases it; and a
fruit-eating step sets it to `timer - 2` when above the 50 ms floor and
leaves it fixed otherwise. -/
theorem snake_timer_bounds :
    (∀ w h n, (AppState.new w h n).snake_timer = 150) ∧
    (∀ s, Reachable s → 50 ≤ s.snake_timer ∧ s.snake_timer ≤ 150) ∧
    (∀ g k fuel code (s s' : AppState) k',
      AppState.handle_input g k fuel code s = some (s', k') →
      s'.snake_timer = s.snake_timer) ∧
    (∀ g k fuel now (s s' : AppState) k',
      AppState.update g k fuel now s = some (s', k') →
      s'.snake_timer ≤ s.snake_timer) ∧
    (∀ g k fuel now (s s' : AppState) k' (hd : Point) (tl : List Point)
      (nh : Point),
      s.snake = hd :: tl → nh = ⟨hd.x + s.direction.x, hd.y + s.direction.y⟩ →
      inBounds s.width s.height nh → nh ∉ s.snake → nh = s.food →
      AppState.step_snake g k fuel now s = some (s', k') →
      s'.snake_timer = if 50 < s.snake_timer then s.snake_timer - 2
                       else s.snake_timer) := by
  refine ⟨fun w h n => rfl,
    fun s hr => ⟨(reachable_good s hr).1.1, (reachable_good s hr).1.2.1⟩,
    ?_, ?_, ?_⟩
  · intro g k fuel code s s' k' h
    by_cases hch : pushHistory s.input_history code = cheatSeq
    · exact (handle_input_cheat g k fuel code s s' k' hch h).2.2.2.2.2.1
    · exact (handle_input_noncheat g k fuel code s s' k' hch h).2.2.2.1
  · intro g k fuel now s s' k' h
    simp only [AppState.update] at h
    cases hm : s.mode <;> simp only [hm] at h
    case Ambient =>
      rw [Option.some.injEq, Prod.mk.injEq] at h
      obtain ⟨h1, -⟩ := h
      subst h1
      exact Nat.le_refl _
    case Snake =>
      split_ifs at h with helapsed
      · cases hstep : AppState.step_snake g k fuel now s with
        | none => rw [hstep] at h; exact Option.noConfusion h
        | some sk =>
          obtain ⟨s1, k1⟩ := sk
          rw [hstep] at h
          rw [Option.some.injEq, Prod.mk.injEq] at h
          obtain ⟨h1, -⟩ := h
          subst h1
          obtain ⟨-, ct, -⟩ := step_snake_cases g k fuel now s s1 k1 hstep
          dsimp only
          rcases ct with ht | ⟨h50, ht⟩ <;> omega
      · rw [Option.some.injEq, Prod.mk.injEq] at h
        obtain ⟨h1, -⟩ := h
        subst h1
        exact Nat.le_refl _
    case GameOver =>
      cases hgo : s.game_over_timer with
      | none =>
        simp only [hgo] at h
        rw [Option.some.injEq, Prod.mk.injEq] at h
        obtain ⟨h1, -⟩ := h
        subst h1
        exact Nat.le_refl _
      | some t =>
        simp only [hgo] at h
        split_ifs at h with h5 <;>
        · rw [Option.some.injEq, Prod.mk.injEq] at h
          obtain ⟨h1, -⟩ := h
          subst h1
          exact Nat.le_refl _
  · intro g k fuel now s s' k' hd tl nh hs hnh hb hnm hfood h
    subst hnh
    rw [hs] at hnm
    unfold inBounds at hb
    have hncond : ¬((⟨hd.x + s.direction.x, hd.y + s.direction.y⟩ : Point).x < 0 ∨
        s.width ≤ (⟨hd.x + s.direction.x, hd.y + s.direction.y⟩ : Point).x ∨
        (⟨hd.x + s.direction.x, hd.y + s.direction.y⟩ : Point).y < 0 ∨
        s.height ≤ (⟨hd.x + s.direction.x, hd.y + s.direction.y⟩ : Point).y ∨
        (⟨hd.x + s.direction.x, hd.y + s.direction.y⟩ : Point) ∈ hd :: tl) := by
      dsimp only at hb ⊢
      push_neg
      exact ⟨by omega, by omega, by omega, by omega, hnm⟩
    simp only [AppState.step_snake, hs] at h
    rw [if_neg hncond, if_pos hfood] at h
    simp only [AppState.spawn_food] at h
    cases hsp : spawn_food_loop g
        ((⟨hd.x + s.direction.x, hd.y + s.direction.y⟩ : Point) :: hd :: tl)
        s.width s.height k fuel with
    | none => rw [hsp] at h; exact Option.noConfusion h
    | some qk =>
      obtain ⟨q, k2⟩ := qk
      rw [hsp] at h
      rw [Option.some.injEq, Prod.mk.injEq] at h
      obtain ⟨h1, -⟩ := h
      subst h1
      rfl

/-- Witness for C9: the bounds at the initial state. -/
theorem snake_timer_bounds_witness :
    50 ≤ (AppState.new 22 6 0).snake_timer ∧
    (AppState.new 22 6 0).snake_timer ≤ 150 :=
  snake_timer_bounds.2.1 (AppState.new 22 6 0) (Reachable.init 0)

/-- C10: in every state reachable from the initial state by any sequence of
presses and ticks, Snake mode implies the body has at least 3 cells — in
particular it is non-empty, so the `snake[0]` head access in `step_snake`
cannot fail, even though the initial body is empty. -/
theorem reachable_snake_body (s : AppState) (hr : Reachable s)
    (hm : s.mode = Mode.Snake) : 3 ≤ s.snake.length ∧ s.snake ≠ [] := by
  have h3 := (reachable_good s hr).2.1 hm
  refine ⟨h3, ?_⟩
  intro hnil
  rw [hnil] at h3
  simp at h3

/-- Witness for C10: the state right after the cheat run is reachable and
in Snake mode with a 3-cell body. -/
theorem reachable_snake_body_witness :
    3 ≤ cheatRunEnd.snake.length ∧ cheatRunEnd.snake ≠ [] :=
  reachable_snake_body cheatRunEnd
    (handle_seq_reachable g0 1 cheatSeq (AppState.new 22 6 0) 0 cheatRunEnd 2
      (Reachable.init 0) (by decide)) rfl

end RgbCtrl
